import Mathlib

/-!
# Snake game engine (`src/main.c`): shallow embedding and verified properties

The C program keeps a `ROWS x COLS` array `g_board` of pointers to heap nodes,
one node per cell, allocated once by `init_board` and never re-assigned.  A node
is therefore identified with its cell `(row, col)`; its `row` and `col` fields
are written once and never change.  What changes is the `type` byte and the
`next` pointer of each node, the two snake pointers, and the global counters.

* machine integers: `int` coordinates are `Int`, `size_t` globals are `Nat`
  (the only arithmetic on them is `g_updated_len++`, taken modulo `2^64`);
* `rand()` is an explicit list of draws handed to `add_food`;
* uninitialised memory and out-of-range array reads are explicit parameters;
* an operation returns `Except Fault _`: `no_return` when a loop does not exit
  within the supplied draws or fuel, `bad_pointer` when it would dereference a
  pointer that is not a board node;
* `SIGINT` is an explicit input of a loop iteration (`Signals`); `game_loop` is
  the loop of a run in which no signal arrives, `game_loop_signals` the loop of
  any run.
-/

namespace Snake

/-! ## Data model -/

/-- Number of rows, `#define ROWS 20`. -/
abbrev ROWS : Nat := 20

/-- Number of columns, `#define COLS 20`. -/
abbrev COLS : Nat := 20

/-- Initial snake length, `#define LEN 2`. -/
abbrev LEN : Nat := 2

/-- One past the largest `size_t` value (64-bit target). -/
abbrev SIZE_MOD : Nat := 2 ^ 64

/-- A grid position `(row, col)`; also the identity of the node allocated for it. -/
abbrev Cell := Int × Int

/-- Values a `Node *` can hold: `NULL`, the node of a cell, or anything else. -/
inductive Ptr where
  | null : Ptr
  | node (c : Cell) : Ptr
  | wild (addr : Nat) : Ptr
  deriving DecidableEq, Repr

/-- The mutable part of `struct Node`: the `type` byte and the `next` pointer. -/
structure Node where
  type : Char
  next : Ptr
  deriving DecidableEq, Repr

/-- How an operation can fail to produce a state. -/
inductive Fault where
  | no_return : Fault
  | bad_pointer : Fault
  deriving DecidableEq, Repr

/-- The nodes reachable through `g_board`, indexed by cell.  Only cells inside
the grid have a node; `init_board` is taken to have allocated all of them (the
program exits when `malloc` fails). -/
abbrev Board := Cell → Node

/-- Globals of `main.c` together with the two pointers of `struct Snake`.  The
snake pointers always hold board nodes: an operation that would store anything
else in them, or dereference anything else, is a `bad_pointer` fault. -/
structure State where
  g_is_game_over : Nat
  g_up : Nat
  g_down : Nat
  g_right : Nat
  g_left : Nat
  g_updated_len : Nat
  board : Board
  head : Cell
  tail : Cell

/-- The index pair lies inside `[0, ROWS) x [0, COLS)`. -/
def inGrid (c : Cell) : Prop :=
  0 ≤ c.1 ∧ c.1 < (ROWS : Int) ∧ 0 ≤ c.2 ∧ c.2 < (COLS : Int)

instance inGrid_decidable (c : Cell) : Decidable (inGrid c) := by
  unfold inGrid; infer_instance

/-- The read `g_board[r][c]`: the cell's node inside the array, and whatever
memory holds (`oob r c`) outside of it. -/
def g_board_at (oob : Int → Int → Ptr) (r c : Int) : Ptr :=
  if inGrid (r, c) then Ptr.node (r, c) else oob r c

/-- The assignment `node->type = t`. -/
def set_type (b : Board) (c : Cell) (t : Char) : Board :=
  Function.update b c { b c with type := t }

/-- The assignment `node->next = p`. -/
def set_next (b : Board) (c : Cell) (p : Ptr) : Board :=
  Function.update b c { b c with next := p }

/-! ## Operations -/

/-- Function `init_board`: every node gets type `'*'`; `next` is left as `malloc`
returned it (`junk`). -/
def init_board (junk : Cell → Ptr) : Board :=
  fun c => { type := '*', next := junk c }

/-- The `while (temp != NULL && temp != snake->head)` loop of `init_snake`. -/
def init_snake_loop (oob : Int → Int → Ptr) (head : Cell) :
    Nat → Ptr → Board → Except Fault Board
  | 0, _, _ => Except.error Fault.no_return
  | fuel + 1, temp, b =>
    match temp with
    | Ptr.null => Except.ok b
    | Ptr.wild _ => Except.error Fault.bad_pointer
    | Ptr.node t =>
      if t = head then Except.ok b
      else
        let p := g_board_at oob t.1 (t.2 + 1)
        init_snake_loop oob head fuel p (set_next b t p)

/-- Function `init_snake`, with the constant `LEN` as the argument `len`.  Returns the
board together with `snake->head` and `snake->tail`. -/
def init_snake (oob : Int → Int → Ptr) (len : Nat) (b : Board) :
    Except Fault (Board × Cell × Cell) :=
  let head : Cell := (((ROWS / 2 : Nat) : Int), ((COLS / 2 : Nat) : Int))
  let b1 := set_type b head 'S'
  let tail : Cell :=
    if len > 1 then
      (((ROWS / 2 : Nat) : Int), ((((COLS / 2 : Nat) : Int) - (len : Int) + 1).natAbs : Int))
    else head
  let b2 := if len > 1 then set_type b1 tail 'S' else b1
  match init_snake_loop oob head (ROWS * COLS + 1) (Ptr.node tail) b2 with
  | Except.ok b3 => Except.ok (b3, head, tail)
  | Except.error e => Except.error e

/-- The cell `(rand() % ROWS, rand() % COLS)` picked by one pair of `rand()`
results in `update_food`. -/
def draw_cell (d : Nat × Nat) : Cell :=
  (((d.1 % ROWS : Nat) : Int), ((d.2 % COLS : Nat) : Int))

/-- Function `update_food`: one pair of `rand()` results picks a cell, which is tagged
`'F'` unless it is tagged `'S'`.  Returns the picked cell (`*row`, `*col`). -/
def update_food (d : Nat × Nat) (s : State) : Cell × State :=
  let c : Cell := draw_cell d
  if (s.board c).type ≠ 'S' then (c, { s with board := set_type s.board c 'F' })
  else (c, s)

/-- Function `add_food`: the `do ... while` loop over successive pairs of draws. -/
def add_food : List (Nat × Nat) → State → Except Fault State
  | [], _ => Except.error Fault.no_return
  | d :: ds, s =>
    let r := update_food d s
    if (r.2.board r.1).type = 'S' then add_food ds r.2 else Except.ok r.2

/-- Function `check_direction`: `key` is `none` when `kbhit()` reports no input. -/
def check_direction (key : Option Char) (s : State) : State :=
  match key with
  | none => s
  | some k =>
    if k = 'w' then
      if s.g_down = 0 then { s with g_up := 1, g_down := 0, g_right := 0, g_left := 0 } else s
    else if k = 's' then
      if s.g_up = 0 then { s with g_up := 0, g_down := 1, g_right := 0, g_left := 0 } else s
    else if k = 'd' then
      if s.g_left = 0 then { s with g_up := 0, g_down := 0, g_right := 1, g_left := 0 } else s
    else if k = 'a' then
      if s.g_right = 0 then { s with g_up := 0, g_down := 0, g_right := 0, g_left := 1 } else s
    else s

/-- Function `move_head`: link the old head to the looked-up node, advance the head
pointer and tag the new head `'S'`. -/
def move_head (oob : Int → Int → Ptr) (s : State) (row_offset col_offset : Int) :
    Except Fault State :=
  let p := g_board_at oob (s.head.1 + row_offset) (s.head.2 + col_offset)
  let b1 := set_next s.board s.head p
  match p with
  | Ptr.node n => Except.ok { s with board := set_type b1 n 'S', head := n }
  | _ => Except.error Fault.bad_pointer

/-- Function `move_tail`: untag the tail and, when its link is not `NULL`, advance the
tail pointer and tag the new tail `'S'`. -/
def move_tail (s : State) : Except Fault State :=
  let b1 := set_type s.board s.tail '*'
  match (b1 s.tail).next with
  | Ptr.null => Except.ok { s with board := b1 }
  | Ptr.node t => Except.ok { s with board := set_type b1 t 'S', tail := t }
  | Ptr.wild _ => Except.error Fault.bad_pointer

/-- The `(row_offset, col_offset)` chosen by the `if` chain at the top of
`move_snake`; `none` is the early `return`. -/
def offsets (s : State) : Option (Int × Int) :=
  if s.g_up ≠ 0 then some (-1, 0)
  else if s.g_down ≠ 0 then some (1, 0)
  else if s.g_right ≠ 0 then some (0, 1)
  else if s.g_left ≠ 0 then some (0, -1)
  else none

/-- Function `move_snake`: one tick of the snake. -/
def move_snake (oob : Int → Int → Ptr) (draws : List (Nat × Nat)) (s : State) :
    Except Fault State :=
  match offsets s with
  | none => Except.ok s
  | some (row_offset, col_offset) =>
    let r := s.head.1 + row_offset
    let c := s.head.2 + col_offset
    let next := g_board_at oob r c
    if next = Ptr.null ∨ r < 0 ∨ r ≥ (ROWS : Int) ∨ c < 0 ∨ c ≥ (COLS : Int) then
      Except.ok { s with g_is_game_over := 1 }
    else
      match next with
      | Ptr.node n =>
        if (s.board n).type = '*' then
          match move_head oob s row_offset col_offset with
          | Except.ok s1 => move_tail s1
          | Except.error e => Except.error e
        else if (s.board n).type = 'F' then
          match move_head oob { s with g_updated_len := (s.g_updated_len + 1) % SIZE_MOD }
              row_offset col_offset with
          | Except.ok s1 => add_food draws s1
          | Except.error e => Except.error e
        else Except.ok { s with g_is_game_over := 1 }
      | _ => Except.error Fault.bad_pointer

/-- The start of `main`: the global initialisers, then `init_board`,
`init_snake` and `add_food`. -/
def main_init (junk : Cell → Ptr) (oob : Int → Int → Ptr) (draws : List (Nat × Nat)) :
    Except Fault State :=
  match init_snake oob LEN (init_board junk) with
  | Except.ok (b, head, tail) =>
    add_food draws
      { g_is_game_over := 0, g_up := 0, g_down := 0, g_right := 1, g_left := 0,
        g_updated_len := LEN, board := b, head := head, tail := tail }
  | Except.error e => Except.error e

/-- What one iteration of the `while (!g_is_game_over)` loop consumes. -/
structure Tick where
  key : Option Char
  draws : List (Nat × Nat)
  oob : Int → Int → Ptr

/-- One iteration of the game loop: `check_direction` then `move_snake`. -/
def loop_body (t : Tick) (s : State) : Except Fault State :=
  move_snake t.oob t.draws (check_direction t.key s)

/-- States observed at the loop test of `main`. -/
inductive Reachable : State → Prop where
  | init (junk : Cell → Ptr) (oob : Int → Int → Ptr) (draws : List (Nat × Nat)) (s : State) :
      main_init junk oob draws = Except.ok s → Reachable s
  | step (t : Tick) (s s' : State) :
      Reachable s → s.g_is_game_over = 0 → loop_body t s = Except.ok s' → Reachable s'

/-- The `while (!g_is_game_over)` loop of `main` run on a list of ticks, in a
run during which no `SIGINT` arrives: it stops at the first test that finds the
game over, or when the ticks run out. -/
def game_loop : List Tick → State → Except Fault State
  | [], s => Except.ok s
  | t :: ts, s =>
    if s.g_is_game_over = 0 then
      match loop_body t s with
      | Except.ok s' => game_loop ts s'
      | Except.error e => Except.error e
    else Except.ok s

/-! ## Observations used by the statements -/

/-- Follow `next` links from `cur` until `head` is met, collecting the cells. -/
def chain_from (b : Board) (head : Cell) : Nat → Cell → Option (List Cell)
  | 0, _ => none
  | fuel + 1, cur =>
    if cur = head then some [cur]
    else
      match (b cur).next with
      | Ptr.node c => (chain_from b head fuel c).map (fun l => cur :: l)
      | _ => none

/-- The snake body, tail first and head last: the chain from `snake->tail` to
`snake->head`.  A chain without repetition has at most `ROWS * COLS` cells. -/
def body (s : State) : Option (List Cell) :=
  chain_from s.board s.head (ROWS * COLS) s.tail

/-- Manhattan distance between two cells. -/
def manhattan (a b : Cell) : Nat :=
  (a.1 - b.1).natAbs + (a.2 - b.2).natAbs

/-- The cell `move_snake` looks at: the head displaced by the current offsets. -/
def next_cell (s : State) : Option Cell :=
  (offsets s).map (fun o => (s.head.1 + o.1, s.head.2 + o.2))

/-- The tag of a cell. -/
def tag (s : State) (c : Cell) : Char :=
  (s.board c).type

/-- The list `l` is linked through `next` from its first cell to `head`, which
is its last cell and occurs nowhere earlier. -/
def IsChain (b : Board) (head : Cell) : List Cell → Prop
  | [] => False
  | [x] => x = head
  | x :: y :: r => x ≠ head ∧ (b x).next = Ptr.node y ∧ IsChain b head (y :: r)

/-- Well-formedness of the snake `l` (tail first, head last) on a board: it is
linked from `tail` to `head`, has no repeated cell, stays inside the grid, moves
one cell at a time, and its cells are exactly the cells tagged `'S'`. -/
structure Body (b : Board) (head tail : Cell) (l : List Cell) : Prop where
  chain : IsChain b head l
  tail_first : l.head? = some tail
  nodup : l.Nodup
  in_grid : ∀ c ∈ l, inGrid c
  adjacent : List.Chain' (fun x y => manhattan x y = 1) l
  tagged : ∀ c, (b c).type = 'S' ↔ c ∈ l

/-- Well-formedness of a state with body `l`. -/
structure Inv (s : State) (l : List Cell) : Prop where
  body : Body s.board s.head s.tail l
  length : l.length = s.g_updated_len
  tags : ∀ c, (s.board c).type = '*' ∨ (s.board c).type = 'S' ∨ (s.board c).type = 'F'
  one_food : ∀ c1 c2, (s.board c1).type = 'F' → (s.board c2).type = 'F' → c1 = c2

/-- The state after `move_head` when the looked-up pointer is the node of `n`. -/
def after_head (s : State) (n : Cell) : State :=
  { s with board := set_type (set_next s.board s.head (Ptr.node n)) n 'S', head := n }

/-- The state `main` hands to `add_food`: the initial globals and the snake
laid out by `init_snake` with `LEN = 2`. -/
def before_food (junk : Cell → Ptr) : State :=
  { g_is_game_over := 0, g_up := 0, g_down := 0, g_right := 1, g_left := 0,
    g_updated_len := LEN,
    board := set_next (set_type (set_type (init_board junk) (10, 10) 'S') (10, 9) 'S')
      (10, 9) (Ptr.node (10, 10)),
    head := (10, 10), tail := (10, 9) }

/-- The state after `move_tail` when the tail's link is the node of `t`. -/
def after_tail (s : State) (t : Cell) : State :=
  { s with board := set_type (set_type s.board s.tail '*') t 'S', tail := t }

/-- All cells of the grid, row by row. -/
def all_cells : List Cell :=
  (List.range ROWS).flatMap
    (fun (r : Nat) => (List.range COLS).map (fun (c : Nat) => ((r : Int), (c : Int))))

/-- The four directions of travel. -/
inductive Direction where
  | Up : Direction
  | Down : Direction
  | Right : Direction
  | Left : Direction
  deriving DecidableEq, Repr

/-- The direction `move_snake` acts on: the first flag that is set, in the
order its `if` chain tests them. -/
def current_direction (s : State) : Option Direction :=
  if s.g_up ≠ 0 then some Direction.Up
  else if s.g_down ≠ 0 then some Direction.Down
  else if s.g_right ≠ 0 then some Direction.Right
  else if s.g_left ≠ 0 then some Direction.Left
  else none

/-- The reverse of a direction. -/
def opposite : Direction → Direction
  | Direction.Up => Direction.Down
  | Direction.Down => Direction.Up
  | Direction.Right => Direction.Left
  | Direction.Left => Direction.Right

/-- The key that `check_direction` maps to a direction. -/
def key_of : Direction → Char
  | Direction.Up => 'w'
  | Direction.Down => 's'
  | Direction.Right => 'd'
  | Direction.Left => 'a'

/-- The `(row_offset, col_offset)` that `move_snake` uses for a direction. -/
def offset_of : Direction → Int × Int
  | Direction.Up => (-1, 0)
  | Direction.Down => (1, 0)
  | Direction.Right => (0, 1)
  | Direction.Left => (0, -1)

/-! ## Concrete states used as instances -/

/-- Freshly allocated nodes whose `next` happens to be `NULL`. -/
def null_junk : Cell → Ptr :=
  fun _ => Ptr.null

/-- Out-of-range reads of `g_board` that happen to yield `NULL`. -/
def null_oob : Int → Int → Ptr :=
  fun _ _ => Ptr.null

/-- The start of a game whose first food lands on `(0, 0)`. -/
def start_far : State :=
  { before_food null_junk with board := set_type (before_food null_junk).board (0, 0) 'F' }

/-- The start of a game whose first food lands on `(10, 11)`, straight ahead of
the head. -/
def start_near : State :=
  { before_food null_junk with board := set_type (before_food null_junk).board (10, 11) 'F' }

/-- The state `start_near` after one tick with the draws `[(5, 5)]`: the snake
has eaten and the new food is on `(5, 5)`. -/
def start_near_grown : State :=
  { after_head { start_near with g_updated_len := 3 } (10, 11) with
    board := set_type (after_head { start_near with g_updated_len := 3 } (10, 11)).board
      (5, 5) 'F' }

/-- A snake `(1,2)-(0,2)` with its head on the top row, heading up. -/
def at_top_wall : State :=
  { g_is_game_over := 0, g_up := 1, g_down := 0, g_right := 0, g_left := 0,
    g_updated_len := 2,
    board := set_next (set_type (set_type (init_board null_junk) (0, 2) 'S') (1, 2) 'S')
      (1, 2) (Ptr.node (0, 2)),
    head := (0, 2), tail := (1, 2) }

/-- A state whose head `(10,10)` faces the tail cell `(10,9)`: only the Left
flag is set. -/
def facing_tail : State :=
  { before_food null_junk with g_right := 0, g_left := 1 }

/-- A tick with the key `k`, no draws and `NULL` out-of-range reads. -/
def press (k : Option Char) : Tick :=
  { key := k, draws := [], oob := null_oob }

/-- A tick without key whose `add_food` draws are `ds`. -/
def feed (ds : List (Nat × Nat)) : Tick :=
  { key := none, draws := ds, oob := null_oob }

/-- The state a run ended in, or `dflt` when it did not return. -/
def final_state (r : Except Fault State) (dflt : State) : State :=
  match r with
  | Except.ok s => s
  | Except.error _ => dflt

/-- Ticks that take `start_near` to the snake `(2,5),(2,4),(2,3),(2,2)` heading
left: eat on `(10,11)` and `(10,12)`, go up column 12 to row 2, then left. -/
def ticks_left : List Tick :=
  [feed [(10, 12)], feed [(0, 0)], press (some 'w')] ++ List.replicate 7 (press none) ++
    [press (some 'a')] ++ List.replicate 9 (press none)

/-- The scenario snake `(2,5),(2,4),(2,3),(2,2)` (tail first), head `(2,2)`,
heading left, with the food on `(0,0)`. -/
def scenario_left : State :=
  final_state (game_loop ticks_left start_near) start_near

/-- The start of a game whose first food lands on `(3, 4)`. -/
def start_34 : State :=
  { before_food null_junk with board := set_type (before_food null_junk).board (3, 4) 'F' }

/-- Ticks that take `start_34` to the snake `(3,2),(3,3)` heading right: up
column 10 to row 4, left to column 2, up to row 3, then right. -/
def ticks_grow : List Tick :=
  [press (some 'w')] ++ List.replicate 5 (press none) ++
    [press (some 'a')] ++ List.replicate 7 (press none) ++
    [press (some 'w'), press (some 'd')]

/-- The scenario snake `(3,2),(3,3)` (tail first), head `(3,3)`, heading right,
with the food on `(3,4)`. -/
def scenario_grow : State :=
  final_state (game_loop ticks_grow start_34) start_34

/-! ## Further operations and observations -/

/-- The state `main` has built after `init_board` and `init_snake`, before the
first `add_food`, with `len` in place of the constant `LEN` (in the initialiser
of `g_updated_len` and in `init_snake`). -/
def init_state (len : Nat) (junk : Cell → Ptr) (oob : Int → Int → Ptr) : Except Fault State :=
  match init_snake oob len (init_board junk) with
  | Except.ok (b, head, tail) =>
    Except.ok
      { g_is_game_over := 0, g_up := 0, g_down := 0, g_right := 1, g_left := 0,
        g_updated_len := len, board := b, head := head, tail := tail }
  | Except.error e => Except.error e

/-- The horizontal run of `n` cells of row `ROWS / 2` that ends on the centre
cell, left to right. -/
def run_cells (n : Nat) : List Cell :=
  (List.range n).map (fun (k : Nat) => ((10 : Int), (11 : Int) - (n : Int) + (k : Int)))

/-- The four direction flags `(g_up, g_down, g_right, g_left)`. -/
def flags (s : State) : Nat × Nat × Nat × Nat :=
  (s.g_up, s.g_down, s.g_right, s.g_left)

/-- The flags with exactly the flag of one direction equal to 1. -/
def unit_flags : Direction → Nat × Nat × Nat × Nat
  | Direction.Up => (1, 0, 0, 0)
  | Direction.Down => (0, 1, 0, 0)
  | Direction.Right => (0, 0, 1, 0)
  | Direction.Left => (0, 0, 0, 1)

/-- Exactly the flag of `D` is set (non-zero); the other three are 0. -/
def heading (s : State) (D : Direction) : Prop :=
  match D with
  | Direction.Up => s.g_up ≠ 0 ∧ s.g_down = 0 ∧ s.g_right = 0 ∧ s.g_left = 0
  | Direction.Down => s.g_up = 0 ∧ s.g_down ≠ 0 ∧ s.g_right = 0 ∧ s.g_left = 0
  | Direction.Right => s.g_up = 0 ∧ s.g_down = 0 ∧ s.g_right ≠ 0 ∧ s.g_left = 0
  | Direction.Left => s.g_up = 0 ∧ s.g_down = 0 ∧ s.g_right = 0 ∧ s.g_left ≠ 0

instance heading_decidable (s : State) (D : Direction) : Decidable (heading s D) := by
  cases D <;> unfold heading <;> infer_instance

/-- States reached from the start of `main` by any sequence of
`check_direction` and `move_snake` calls, in any order. -/
inductive EngineReachable : State → Prop where
  | init (junk : Cell → Ptr) (oob : Int → Int → Ptr) (draws : List (Nat × Nat)) (s : State) :
      main_init junk oob draws = Except.ok s → EngineReachable s
  | key (k : Option Char) (s : State) :
      EngineReachable s → EngineReachable (check_direction k s)
  | move (oob : Int → Int → Ptr) (draws : List (Nat × Nat)) (s s' : State) :
      EngineReachable s → move_snake oob draws s = Except.ok s' → EngineReachable s'

/-- The body cell right behind the head, when the body has two cells or more. -/
def neck (s : State) : Option Cell :=
  match body s with
  | some l => l.dropLast.getLast?
  | none => none

/-- A board on which every cell is tagged `'S'`. -/
def full_board : State :=
  { before_food null_junk with board := fun _ => { type := 'S', next := Ptr.null } }

/-- A state in which no direction flag is set. -/
def no_direction : State :=
  { before_food null_junk with g_right := 0 }

/-- Ticks that drive `start_far` up column 10 and into the top wall. -/
def ticks_crash : List Tick :=
  [press (some 'w')] ++ List.replicate 10 (press none)

/-- The state after the snake has run into the top wall: the game is over. -/
def crashed : State :=
  final_state (game_loop ticks_crash start_far) start_far

/-! ## Interrupts -/

/-- Function `handle_sigint`: the handler registered by `main` sets
`g_is_game_over` to 1 (and prints a message). -/
def handle_sigint (s : State) : State :=
  { s with g_is_game_over := 1 }

/-- Where `SIGINT` arrives during one iteration of the game loop, after the
loop test: while `print_board` runs (before `check_direction`), during `usleep`
(between `check_direction` and `move_snake`), or while `system("clear")` runs
(after `move_snake`).  A delivery inside `check_direction` or `move_snake` has
the effect of one of these: neither reads `g_is_game_over`, `check_direction`
does not write it and `move_snake` only ever writes 1 to it. -/
structure Signals where
  at_print : Bool
  at_sleep : Bool
  at_clear : Bool
  deriving DecidableEq, Repr

/-- No `SIGINT` during the iteration. -/
def quiet : Signals :=
  { at_print := false, at_sleep := false, at_clear := false }

/-- One iteration of the game loop with the handler run where `g` says. -/
def loop_body_signals (t : Tick) (g : Signals) (s : State) : Except Fault State :=
  let s0 := if g.at_print then handle_sigint s else s
  let s1 := check_direction t.key s0
  let s2 := if g.at_sleep then handle_sigint s1 else s1
  match move_snake t.oob t.draws s2 with
  | Except.ok s3 => Except.ok (if g.at_clear then handle_sigint s3 else s3)
  | Except.error e => Except.error e

/-- The `while (!g_is_game_over)` loop of `main` run on a list of ticks, each
with the signals that arrive during it. -/
def game_loop_signals : List (Tick × Signals) → State → Except Fault State
  | [], s => Except.ok s
  | t :: ts, s =>
    if s.g_is_game_over = 0 then
      match loop_body_signals t.1 t.2 s with
      | Except.ok s' => game_loop_signals ts s'
      | Except.error e => Except.error e
    else Except.ok s

theorem inGrid_iff (c : Cell) : inGrid c ↔ 0 ≤ c.1 ∧ c.1 < 20 ∧ 0 ≤ c.2 ∧ c.2 < 20 := by
  simp [inGrid]

theorem set_type_same (b : Board) (c : Cell) (t : Char) :
    (set_type b c t c).type = t := by
  simp [set_type]

theorem set_type_other (b : Board) (c c' : Cell) (t : Char) (h : c' ≠ c) :
    set_type b c t c' = b c' := by
  simp [set_type, Function.update_noteq h]

theorem set_type_next (b : Board) (c c' : Cell) (t : Char) :
    (set_type b c t c').next = (b c').next := by
  by_cases h : c' = c
  · subst h; simp [set_type]
  · rw [set_type_other b c c' t h]

theorem set_type_type (b : Board) (c c' : Cell) (t : Char) :
    (set_type b c t c').type = if c' = c then t else (b c').type := by
  by_cases h : c' = c
  · subst h; simp [set_type]
  · rw [set_type_other b c c' t h]; simp [h]

theorem set_next_same (b : Board) (c : Cell) (p : Ptr) :
    (set_next b c p c).next = p := by
  simp [set_next]

theorem set_next_other (b : Board) (c c' : Cell) (p : Ptr) (h : c' ≠ c) :
    set_next b c p c' = b c' := by
  simp [set_next, Function.update_noteq h]

theorem set_next_type (b : Board) (c c' : Cell) (p : Ptr) :
    (set_next b c p c').type = (b c').type := by
  by_cases h : c' = c
  · subst h; simp [set_next]
  · rw [set_next_other b c c' p h]

/-! ## Chains -/

theorem isChain_ne_nil {b : Board} {h : Cell} {l : List Cell} (hl : IsChain b h l) :
    l ≠ [] := by
  intro e; subst e; exact hl

theorem isChain_getLast {b : Board} {h : Cell} :
    ∀ {l : List Cell}, IsChain b h l → l.getLast? = some h
  | [], hl => hl.elim
  | [x], hl => by simp [IsChain] at hl; simp [hl]
  | x :: y :: r, hl => by
    have ih := isChain_getLast hl.2.2
    simpa [List.getLast?_cons_cons] using ih

theorem isChain_head_mem {b : Board} {h : Cell} {l : List Cell} (hl : IsChain b h l) :
    h ∈ l :=
  List.mem_of_getLast?_eq_some (isChain_getLast hl)

theorem isChain_congr {b b' : Board} {h : Cell} :
    ∀ {l : List Cell}, (∀ c ∈ l, c ≠ h → (b' c).next = (b c).next) →
      IsChain b h l → IsChain b' h l
  | [], _, hl => hl.elim
  | [_], _, hl => hl
  | x :: y :: r, hb, hl => by
    refine ⟨hl.1, ?_, isChain_congr (fun c hc => hb c (List.mem_cons_of_mem _ hc)) hl.2.2⟩
    rw [hb x (List.mem_cons_self _ _) hl.1]; exact hl.2.1

theorem isChain_snoc {b : Board} {h n : Cell} :
    ∀ {l : List Cell}, IsChain b h l → n ∉ l →
      IsChain (set_next b h (Ptr.node n)) n (l ++ [n])
  | [], hl, _ => hl.elim
  | [x], hl, hn => by
    have hx : x = h := hl
    subst hx
    have hne : x ≠ n := fun e => hn (by simp [e])
    exact ⟨hne, set_next_same b x _, rfl⟩
  | x :: y :: r, hl, hn => by
    have hxn : x ≠ n := fun e => hn (by simp [e])
    have hn' : n ∉ y :: r := fun hm => hn (List.mem_cons_of_mem _ hm)
    refine ⟨hxn, ?_, isChain_snoc hl.2.2 hn'⟩
    rw [set_next_other b h x _ hl.1]; exact hl.2.1

theorem chain_from_of_isChain {b : Board} {h : Cell} :
    ∀ (fuel : Nat) (t : Cell) (r : List Cell), IsChain b h (t :: r) →
      (t :: r).length ≤ fuel → chain_from b h fuel t = some (t :: r)
  | 0, _, _, _, hf => by simp at hf
  | fuel + 1, t, [], hl, _ => by
    have ht : t = h := hl
    simp [chain_from, ht]
  | fuel + 1, t, y :: r, hl, hf => by
    have ih := chain_from_of_isChain fuel y r hl.2.2 (by simpa using hf)
    simp [chain_from, hl.1, hl.2.1, ih]

theorem mem_all_cells {c : Cell} (hc : inGrid c) : c ∈ all_cells := by
  obtain ⟨h1, h2, h3, h4⟩ := (inGrid_iff c).1 hc
  have hR : c.1.toNat < ROWS := by
    have : ROWS = 20 := rfl
    omega
  have hC : c.2.toNat < COLS := by
    have : COLS = 20 := rfl
    omega
  refine List.mem_flatMap.2 ⟨c.1.toNat, List.mem_range.2 hR, ?_⟩
  refine List.mem_map.2 ⟨c.2.toNat, List.mem_range.2 hC, ?_⟩
  ext
  · simp only [Int.toNat_of_nonneg h1]
  · simp only [Int.toNat_of_nonneg h3]

theorem length_le_of_nodup {l : List Cell} (hn : l.Nodup) (hg : ∀ c ∈ l, inGrid c) :
    l.length ≤ ROWS * COLS := by
  have hsub : l ⊆ all_cells := fun c hc => mem_all_cells (hg c hc)
  have := (hn.subperm hsub).length_le
  simpa [all_cells] using this

/-! ## The operations case by case -/

theorem add_food_eq (draws : List (Nat × Nat)) (s : State) :
    add_food draws s =
      match draws.find? (fun d => decide ((s.board (draw_cell d)).type ≠ 'S')) with
      | some d => Except.ok { s with board := set_type s.board (draw_cell d) 'F' }
      | none => Except.error Fault.no_return := by
  induction draws with
  | nil => rfl
  | cons d ds ih =>
    by_cases h : (s.board (draw_cell d)).type = 'S'
    · simp only [add_food, update_food, h, ne_eq, not_true_eq_false, if_false, if_true]
      rw [ih]
      simp [List.find?, h]
    · simp only [add_food, update_food, ne_eq, h, not_false_eq_true, if_true, set_type_same]
      simp [List.find?, h]

theorem move_snake_none (oob : Int → Int → Ptr) (draws : List (Nat × Nat)) (s : State)
    (ho : offsets s = none) : move_snake oob draws s = Except.ok s := by
  simp [move_snake, ho]

theorem move_snake_wall (oob : Int → Int → Ptr) (draws : List (Nat × Nat)) (s : State)
    (o : Int × Int) (ho : offsets s = some o)
    (hout : ¬ inGrid (s.head.1 + o.1, s.head.2 + o.2)) :
    move_snake oob draws s = Except.ok { s with g_is_game_over := 1 } := by
  have hb : s.head.1 + o.1 < 0 ∨ s.head.1 + o.1 ≥ 20 ∨ s.head.2 + o.2 < 0 ∨ s.head.2 + o.2 ≥ 20 := by
    rw [inGrid_iff] at hout
    simp only at hout
    omega
  simp only [move_snake, ho]
  rw [if_pos (Or.inr (by simpa using hb))]

theorem move_snake_inside (oob : Int → Int → Ptr) (draws : List (Nat × Nat)) (s : State)
    (o : Int × Int) (ho : offsets s = some o)
    (hin : inGrid (s.head.1 + o.1, s.head.2 + o.2)) :
    move_snake oob draws s =
      if (s.board (s.head.1 + o.1, s.head.2 + o.2)).type = '*' then
        move_tail (after_head s (s.head.1 + o.1, s.head.2 + o.2))
      else if (s.board (s.head.1 + o.1, s.head.2 + o.2)).type = 'F' then
        add_food draws
          (after_head { s with g_updated_len := (s.g_updated_len + 1) % SIZE_MOD }
            (s.head.1 + o.1, s.head.2 + o.2))
      else Except.ok { s with g_is_game_over := 1 } := by
  have hb : ¬ (s.head.1 + o.1 < 0 ∨ s.head.1 + o.1 ≥ 20 ∨ s.head.2 + o.2 < 0 ∨ s.head.2 + o.2 ≥ 20) := by
    rw [inGrid_iff] at hin
    simp only at hin
    omega
  simp only [move_snake, ho, g_board_at, hin, if_true, move_head, after_head]
  rw [if_neg (by simpa using hb)]

theorem add_food_ok {draws : List (Nat × Nat)} {s s' : State}
    (h : add_food draws s = Except.ok s') :
    ∃ d ∈ draws, (s.board (draw_cell d)).type ≠ 'S' ∧
      s' = { s with board := set_type s.board (draw_cell d) 'F' } := by
  rw [add_food_eq] at h
  cases hf : draws.find? (fun d => decide ((s.board (draw_cell d)).type ≠ 'S')) with
  | none => rw [hf] at h; cases h
  | some d =>
    rw [hf] at h
    have hp := List.find?_some hf
    have hm := List.mem_of_find?_eq_some hf
    refine ⟨d, hm, by simpa using hp, ?_⟩
    cases h; rfl

theorem add_food_returns (draws : List (Nat × Nat)) (s : State) :
    (∃ s', add_food draws s = Except.ok s') ↔
      ∃ d ∈ draws, (s.board (draw_cell d)).type ≠ 'S' := by
  constructor
  · rintro ⟨s', h⟩
    obtain ⟨d, hd, hne, _⟩ := add_food_ok h
    exact ⟨d, hd, hne⟩
  · rintro ⟨d, hd, hne⟩
    rw [add_food_eq]
    cases hf : draws.find? (fun d => decide ((s.board (draw_cell d)).type ≠ 'S')) with
    | none =>
      have := List.find?_eq_none.1 hf d hd
      simp at this
      exact (hne this).elim
    | some d' => exact ⟨_, rfl⟩

theorem draw_cell_inGrid (d : Nat × Nat) : inGrid (draw_cell d) := by
  rw [inGrid_iff]
  have h1 : d.1 % ROWS < 20 := Nat.mod_lt _ (by decide)
  have h2 : d.2 % COLS < 20 := Nat.mod_lt _ (by decide)
  simp only [draw_cell]
  omega

theorem move_tail_eq {s : State} {t' : Cell} (h : (s.board s.tail).next = Ptr.node t') :
    move_tail s = Except.ok (after_tail s t') := by
  simp [move_tail, set_type_next, h, after_tail]

/-! ## Preservation of the body -/

theorem body_after_head {b : Board} {h t n : Cell} {l : List Cell} (hb : Body b h t l)
    (hin : inGrid n) (hadj : manhattan h n = 1) (hS : (b n).type ≠ 'S') :
    Body (set_type (set_next b h (Ptr.node n)) n 'S') n t (l ++ [n]) := by
  have hnl : n ∉ l := fun hm => hS ((hb.tagged n).2 hm)
  have hne : l ≠ [] := isChain_ne_nil hb.chain
  refine ⟨?_, ?_, ?_, ?_, ?_, ?_⟩
  · exact isChain_congr (fun c _ _ => set_type_next _ _ _ _) (isChain_snoc hb.chain hnl)
  · cases l with
    | nil => exact (hne rfl).elim
    | cons x r => simpa using hb.tail_first
  · exact List.Nodup.append hb.nodup (List.nodup_singleton n) (by simpa using hnl)
  · intro c hc
    rcases List.mem_append.1 hc with hc | hc
    · exact hb.in_grid c hc
    · rw [List.mem_singleton.1 hc]; exact hin
  · refine List.Chain'.append hb.adjacent (List.chain'_singleton n) ?_
    intro x hx y hy
    rw [isChain_getLast hb.chain] at hx
    simp at hx hy
    subst hx; subst hy
    exact hadj
  · intro c
    rw [set_type_type, set_next_type]
    by_cases hc : c = n
    · simp [hc]
    · simp [hc, hb.tagged c]

theorem body_after_tail {b : Board} {h t t' : Cell} {r : List Cell}
    (hb : Body b h t (t :: t' :: r)) :
    Body (set_type (set_type b t '*') t' 'S') h t' (t' :: r) := by
  have hnd := List.nodup_cons.1 hb.nodup
  have htt : t ≠ t' := fun e => hnd.1 (by simp [e])
  refine ⟨?_, rfl, hnd.2, fun c hc => hb.in_grid c (List.mem_cons_of_mem _ hc), ?_, ?_⟩
  · refine isChain_congr (fun c _ _ => ?_) hb.chain.2.2
    rw [set_type_next, set_type_next]
  · exact (List.chain'_cons.1 hb.adjacent).2
  · intro c
    rw [set_type_type, set_type_type]
    by_cases hc : c = t'
    · simp [hc]
    · by_cases hct : c = t
      · subst hct
        simp only [hc, if_false, if_true]
        constructor
        · intro h; exact absurd h (by decide)
        · intro h; exact absurd h hnd.1
      · simp only [hc, hct, if_false]
        rw [hb.tagged c]
        simp [hct]

theorem body_set_food {b : Board} {h t f : Cell} {l : List Cell} (hb : Body b h t l)
    (hS : (b f).type ≠ 'S') : Body (set_type b f 'F') h t l := by
  refine ⟨?_, hb.tail_first, hb.nodup, hb.in_grid, hb.adjacent, ?_⟩
  · exact isChain_congr (fun c _ _ => set_type_next _ _ _ _) hb.chain
  · intro c
    rw [set_type_type]
    by_cases hc : c = f
    · subst hc
      simp only [if_true]
      constructor
      · intro h; exact absurd h (by decide)
      · intro h; exact absurd ((hb.tagged c).2 h) hS
    · simp only [hc, if_false]; exact hb.tagged c

theorem offsets_adjacent {s : State} {o : Int × Int} (ho : offsets s = some o) (h : Cell) :
    manhattan h (h.1 + o.1, h.2 + o.2) = 1 := by
  unfold offsets at ho
  split_ifs at ho <;> cases ho <;> simp [manhattan]

/-! ## Preservation of the invariant -/

theorem inv_of_eq {s s' : State} {l : List Cell} (hi : Inv s l) (hb : s'.board = s.board)
    (hh : s'.head = s.head) (ht : s'.tail = s.tail)
    (hl : s'.g_updated_len = s.g_updated_len) : Inv s' l := by
  obtain ⟨h1, h2, h3, h4⟩ := hi
  refine ⟨?_, ?_, ?_, ?_⟩
  · rw [hb, hh, ht]; exact h1
  · rw [hl]; exact h2
  · rw [hb]; exact h3
  · rw [hb]; exact h4

theorem inv_length_le {s : State} {l : List Cell} (hi : Inv s l) : l.length ≤ ROWS * COLS :=
  length_le_of_nodup hi.body.nodup hi.body.in_grid

theorem inv_body {s : State} {l : List Cell} (hi : Inv s l) : body s = some l := by
  have hc := hi.body.chain
  have ht := hi.body.tail_first
  cases l with
  | nil => exact hc.elim
  | cons t r =>
    simp only [List.head?_cons, Option.some.injEq] at ht
    subst ht
    exact chain_from_of_isChain _ _ _ hc (inv_length_le hi)

theorem inv_set_food {s : State} {l : List Cell} {f : Cell} (hi : Inv s l)
    (hF : ∀ c, (s.board c).type ≠ 'F') (hS : (s.board f).type ≠ 'S') :
    Inv { s with board := set_type s.board f 'F' } l := by
  refine ⟨body_set_food hi.body hS, hi.length, ?_, ?_⟩
  · intro c
    show (set_type s.board f 'F' c).type = '*' ∨ _ ∨ _
    rw [set_type_type]
    by_cases hc : c = f
    · simp [hc]
    · simp only [hc, if_false]; exact hi.tags c
  · intro c1 c2 h1 h2
    have e1 : (set_type s.board f 'F' c1).type = 'F' := h1
    have e2 : (set_type s.board f 'F' c2).type = 'F' := h2
    rw [set_type_type] at e1 e2
    by_cases hc1 : c1 = f
    · by_cases hc2 : c2 = f
      · rw [hc1, hc2]
      · simp only [hc2, if_false] at e2; exact absurd e2 (hF c2)
    · simp only [hc1, if_false] at e1; exact absurd e1 (hF c1)

/-- The tags after a move onto an empty cell `n`. -/
theorem step_empty (oob : Int → Int → Ptr) (draws : List (Nat × Nat)) {s : State}
    {l : List Cell} {o : Int × Int} (hi : Inv s l) (ho : offsets s = some o)
    (hin : inGrid (s.head.1 + o.1, s.head.2 + o.2))
    (ht : (s.board (s.head.1 + o.1, s.head.2 + o.2)).type = '*') :
    ∃ t', move_snake oob draws s =
        Except.ok (after_tail (after_head s (s.head.1 + o.1, s.head.2 + o.2)) t') ∧
      Inv (after_tail (after_head s (s.head.1 + o.1, s.head.2 + o.2)) t')
        (l.tail ++ [(s.head.1 + o.1, s.head.2 + o.2)]) ∧
      ∀ c, ((after_tail (after_head s (s.head.1 + o.1, s.head.2 + o.2)) t').board c).type =
        if c = (s.head.1 + o.1, s.head.2 + o.2) then 'S'
        else if c = s.tail then '*' else (s.board c).type := by
  generalize hn : (s.head.1 + o.1, s.head.2 + o.2) = n at *
  have hS : (s.board n).type ≠ 'S' := by rw [ht]; decide
  have hadj : manhattan s.head n = 1 := by rw [← hn]; exact offsets_adjacent ho s.head
  have hb1 := body_after_head hi.body hin hadj hS
  have hnl : n ∉ l := fun hm => hS ((hi.body.tagged n).2 hm)
  rw [move_snake_inside oob draws s o ho (by rw [hn]; exact hin), hn, if_pos ht]
  have htf := hi.body.tail_first
  cases l with
  | nil => exact (isChain_ne_nil hi.body.chain rfl).elim
  | cons t r =>
    simp only [List.head?_cons, Option.some.injEq] at htf
    subst htf
    have hexp : ∃ t' r', r ++ [n] = t' :: r' := by
      cases r with
      | nil => exact ⟨n, [], rfl⟩
      | cons y r2 => exact ⟨y, r2 ++ [n], rfl⟩
    obtain ⟨t', r', hr⟩ := hexp
    have hb1' : Body (after_head s n).board (after_head s n).head (after_head s n).tail
        (s.tail :: t' :: r') := by
      have : (s.tail :: r) ++ [n] = s.tail :: t' :: r' := by simp [hr]
      rw [← this]; exact hb1
    have hnext : ((after_head s n).board (after_head s n).tail).next = Ptr.node t' := by
      exact hb1'.chain.2.1
    have hb2 := body_after_tail (t := s.tail) hb1'
    have htag : ∀ c, ((after_tail (after_head s n) t').board c).type =
        if c = n then 'S' else if c = s.tail then '*' else (s.board c).type := by
      intro c
      show (set_type (set_type (set_type (set_next s.board s.head (Ptr.node n)) n 'S')
        s.tail '*') t' 'S' c).type = _
      rw [set_type_type, set_type_type, set_type_type, set_next_type]
      have hnd := List.nodup_cons.1 hb1'.nodup
      have htn : s.tail ≠ n := by
        intro e; exact hnl (by simp [e])
      by_cases hct : c = t'
      · subst hct
        simp only [if_true]
        by_cases hcn : c = n
        · simp [hcn]
        · have hcl : c ∈ s.tail :: r := by
            have : c ∈ r ++ [n] := by rw [hr]; simp
            rcases List.mem_append.1 this with h | h
            · exact List.mem_cons_of_mem _ h
            · exact absurd (List.mem_singleton.1 h) hcn
          have hct2 : c ≠ s.tail := by
            intro e; exact hnd.1 (by simp [← e])
          simp [hcn, hct2, (hi.body.tagged c).2 hcl]
      · simp only [hct, if_false]
        by_cases hc2 : c = s.tail
        · simp [hc2, htn]
        · simp [hc2]
    refine ⟨t', move_tail_eq hnext, ⟨?_, ?_, ?_, ?_⟩, htag⟩
    · show Body _ _ _ (r ++ [n])
      rw [hr]
      exact hb2
    · show (r ++ [n]).length = s.g_updated_len
      rw [← hi.length]; simp
    · intro c
      rw [htag c]
      by_cases hcn : c = n
      · simp [hcn]
      · by_cases hc2 : c = s.tail
        · rw [if_neg hcn, if_pos hc2]; exact Or.inl rfl
        · simp only [hcn, hc2, if_false]; exact hi.tags c
    · intro c1 c2 h1 h2
      rw [htag c1] at h1
      rw [htag c2] at h2
      have f1 : (s.board c1).type = 'F' := by
        by_cases a : c1 = n
        · rw [if_pos a] at h1; exact absurd h1 (by decide)
        · by_cases b : c1 = s.tail
          · rw [if_neg a, if_pos b] at h1; exact absurd h1 (by decide)
          · rw [if_neg a, if_neg b] at h1; exact h1
      have f2 : (s.board c2).type = 'F' := by
        by_cases a : c2 = n
        · rw [if_pos a] at h2; exact absurd h2 (by decide)
        · by_cases b : c2 = s.tail
          · rw [if_neg a, if_pos b] at h2; exact absurd h2 (by decide)
          · rw [if_neg a, if_neg b] at h2; exact h2
      exact hi.one_food c1 c2 f1 f2

/-- The state reached by a move onto the food cell `n`, before `add_food`. -/
theorem step_food (oob : Int → Int → Ptr) (draws : List (Nat × Nat)) {s : State}
    {l : List Cell} {o : Int × Int} (hi : Inv s l) (ho : offsets s = some o)
    (hin : inGrid (s.head.1 + o.1, s.head.2 + o.2))
    (ht : (s.board (s.head.1 + o.1, s.head.2 + o.2)).type = 'F') :
    move_snake oob draws s =
        add_food draws (after_head { s with g_updated_len := s.g_updated_len + 1 }
          (s.head.1 + o.1, s.head.2 + o.2)) ∧
      Inv (after_head { s with g_updated_len := s.g_updated_len + 1 }
          (s.head.1 + o.1, s.head.2 + o.2)) (l ++ [(s.head.1 + o.1, s.head.2 + o.2)]) ∧
      ∀ c, ((after_head { s with g_updated_len := s.g_updated_len + 1 }
          (s.head.1 + o.1, s.head.2 + o.2)).board c).type =
        if c = (s.head.1 + o.1, s.head.2 + o.2) then 'S' else (s.board c).type := by
  generalize hn : (s.head.1 + o.1, s.head.2 + o.2) = n at *
  have hS : (s.board n).type ≠ 'S' := by rw [ht]; decide
  have hstar : (s.board n).type ≠ '*' := by rw [ht]; decide
  have hadj : manhattan s.head n = 1 := by rw [← hn]; exact offsets_adjacent ho s.head
  have hb1 := body_after_head hi.body hin hadj hS
  have hlen : (l ++ [n]).length ≤ ROWS * COLS := length_le_of_nodup hb1.nodup hb1.in_grid
  have hmod : (s.g_updated_len + 1) % SIZE_MOD = s.g_updated_len + 1 := by
    apply Nat.mod_eq_of_lt
    have h1 : s.g_updated_len + 1 ≤ ROWS * COLS := by
      rw [← hi.length]; simpa using hlen
    have h2 : ROWS * COLS < SIZE_MOD := by decide
    omega
  have htag : ∀ c, ((after_head { s with g_updated_len := s.g_updated_len + 1 } n).board c).type =
      if c = n then 'S' else (s.board c).type := by
    intro c
    show (set_type (set_next s.board s.head (Ptr.node n)) n 'S' c).type = _
    rw [set_type_type, set_next_type]
  refine ⟨?_, ⟨hb1, ?_, ?_, ?_⟩, htag⟩
  · rw [move_snake_inside oob draws s o ho (by rw [hn]; exact hin), hn, if_neg hstar,
      if_pos ht, hmod]
  · show (l ++ [n]).length = s.g_updated_len + 1
    rw [← hi.length]; simp
  · intro c
    rw [htag c]
    by_cases hcn : c = n
    · rw [if_pos hcn]; exact Or.inr (Or.inl rfl)
    · rw [if_neg hcn]; exact hi.tags c
  · intro c1 c2 h1 h2
    rw [htag c1] at h1
    rw [htag c2] at h2
    by_cases a : c1 = n
    · rw [if_pos a] at h1; exact absurd h1 (by decide)
    · by_cases b : c2 = n
      · rw [if_pos b] at h2; exact absurd h2 (by decide)
      · rw [if_neg a] at h1; rw [if_neg b] at h2
        exact hi.one_food c1 c2 h1 h2

/-- After the head has moved onto the food cell no cell is tagged `'F'`. -/
theorem step_food_no_food {s : State} {l : List Cell} {n : Cell} (hi : Inv s l)
    (ht : (s.board n).type = 'F') (c : Cell) :
    ((after_head { s with g_updated_len := s.g_updated_len + 1 } n).board c).type ≠ 'F' := by
  show (set_type (set_next s.board s.head (Ptr.node n)) n 'S' c).type ≠ 'F'
  rw [set_type_type, set_next_type]
  by_cases hcn : c = n
  · rw [if_pos hcn]; decide
  · rw [if_neg hcn]
    intro h
    exact hcn (hi.one_food c n h ht)

theorem check_direction_frame (k : Option Char) (s : State) :
    (check_direction k s).board = s.board ∧ (check_direction k s).head = s.head ∧
      (check_direction k s).tail = s.tail ∧
      (check_direction k s).g_updated_len = s.g_updated_len ∧
      (check_direction k s).g_is_game_over = s.g_is_game_over := by
  unfold check_direction
  cases k with
  | none => simp
  | some k => simp only; split_ifs <;> simp

theorem inv_move_snake {oob : Int → Int → Ptr} {draws : List (Nat × Nat)} {s s' : State}
    {l : List Cell} (hi : Inv s l) (h : move_snake oob draws s = Except.ok s') :
    ∃ l', Inv s' l' := by
  cases ho : offsets s with
  | none =>
    rw [move_snake_none oob draws s ho] at h
    cases h; exact ⟨l, hi⟩
  | some o =>
    by_cases hin : inGrid (s.head.1 + o.1, s.head.2 + o.2)
    · by_cases hE : (s.board (s.head.1 + o.1, s.head.2 + o.2)).type = '*'
      · obtain ⟨t', he, hi', _⟩ := step_empty oob draws hi ho hin hE
        rw [he] at h
        cases h; exact ⟨_, hi'⟩
      · by_cases hF : (s.board (s.head.1 + o.1, s.head.2 + o.2)).type = 'F'
        · obtain ⟨he, hi', _⟩ := step_food oob draws hi ho hin hF
          rw [he] at h
          obtain ⟨d, _, hS, hs'⟩ := add_food_ok h
          rw [hs']
          exact ⟨_, inv_set_food hi' (step_food_no_food hi hF) hS⟩
        · rw [move_snake_inside oob draws s o ho hin, if_neg hE, if_neg hF] at h
          cases h
          exact ⟨l, inv_of_eq hi rfl rfl rfl rfl⟩
    · rw [move_snake_wall oob draws s o ho hin] at h
      cases h
      exact ⟨l, inv_of_eq hi rfl rfl rfl rfl⟩

theorem inv_check_direction {s : State} {l : List Cell} (k : Option Char) (hi : Inv s l) :
    Inv (check_direction k s) l := by
  obtain ⟨h1, h2, h3, h4, _⟩ := check_direction_frame k s
  exact inv_of_eq hi h1 h2 h3 h4

theorem init_snake_LEN (junk : Cell → Ptr) (oob : Int → Int → Ptr) :
    init_snake oob LEN (init_board junk) =
      Except.ok (set_next (set_type (set_type (init_board junk) (10, 10) 'S') (10, 9) 'S')
        (10, 9) (Ptr.node (10, 10)), (10, 10), (10, 9)) := rfl

/-! ## Reachable states are well formed -/

theorem main_init_eq (junk : Cell → Ptr) (oob : Int → Int → Ptr) (draws : List (Nat × Nat)) :
    main_init junk oob draws = add_food draws (before_food junk) := rfl

theorem before_food_type (junk : Cell → Ptr) (c : Cell) :
    ((before_food junk).board c).type =
      if c = (10, 9) then 'S' else if c = (10, 10) then 'S' else '*' := by
  show (set_next (set_type (set_type (init_board junk) (10, 10) 'S') (10, 9) 'S')
      (10, 9) (Ptr.node (10, 10)) c).type = _
  rw [set_next_type, set_type_type, set_type_type]
  rfl

theorem inv_before_food (junk : Cell → Ptr) :
    Inv (before_food junk) [(10, 9), (10, 10)] := by
  refine ⟨⟨?_, rfl, by decide, by decide, ?_, ?_⟩, rfl, ?_, ?_⟩
  · have hne : ((10, 9) : Cell) ≠ (10, 10) := by decide
    exact ⟨hne, set_next_same _ _ _, rfl⟩
  · simp [manhattan]
  · intro c
    rw [before_food_type]
    by_cases h1 : c = (10, 9)
    · simp [h1]
    · by_cases h2 : c = (10, 10)
      · simp [h2]
      · simp [h1, h2]
  · intro c
    rw [before_food_type]
    by_cases h1 : c = (10, 9)
    · simp [h1]
    · by_cases h2 : c = (10, 10)
      · simp [h2]
      · simp [h1, h2]
  · intro c1 c2 h1 _
    rw [before_food_type] at h1
    split_ifs at h1 <;> exact absurd h1 (by decide)

theorem before_food_no_food (junk : Cell → Ptr) (c : Cell) :
    ((before_food junk).board c).type ≠ 'F' := by
  rw [before_food_type]
  split_ifs <;> decide

theorem inv_main_init {junk : Cell → Ptr} {oob : Int → Int → Ptr} {draws : List (Nat × Nat)}
    {s : State} (h : main_init junk oob draws = Except.ok s) :
    Inv s [(10, 9), (10, 10)] := by
  rw [main_init_eq] at h
  obtain ⟨d, _, hS, hs⟩ := add_food_ok h
  rw [hs]
  exact inv_set_food (inv_before_food junk) (before_food_no_food junk) hS

theorem reachable_inv {s : State} (h : Reachable s) : ∃ l, Inv s l := by
  induction h with
  | init junk oob draws s h0 => exact ⟨_, inv_main_init h0⟩
  | step t s s' _ _ hstep ih =>
    obtain ⟨l, hl⟩ := ih
    exact inv_move_snake (inv_check_direction t.key hl) hstep

/-! ## Instances -/

theorem start_far_reachable : Reachable start_far :=
  Reachable.init null_junk null_oob [(0, 0)] start_far rfl

theorem start_near_reachable : Reachable start_near :=
  Reachable.init null_junk null_oob [(10, 11)] start_near rfl

theorem reachable_game_loop {s s' : State} (ts : List Tick) (h : Reachable s)
    (hrun : game_loop ts s = Except.ok s') : Reachable s' := by
  induction ts generalizing s with
  | nil => cases hrun; exact h
  | cons t ts ih =>
    unfold game_loop at hrun
    by_cases h0 : s.g_is_game_over = 0
    · rw [if_pos h0] at hrun
      cases hb : loop_body t s with
      | error e => rw [hb] at hrun; cases hrun
      | ok s1 =>
        rw [hb] at hrun
        exact ih (Reachable.step t s s1 h h0 hb) hrun
    · rw [if_neg h0] at hrun
      cases hrun; exact h

theorem scenario_left_reachable : Reachable scenario_left :=
  reachable_game_loop ticks_left start_near_reachable rfl

theorem next_cell_adjacent {s : State} {n : Cell} (h : next_cell s = some n) :
    ∃ o, offsets s = some o ∧ n = (s.head.1 + o.1, s.head.2 + o.2) := by
  unfold next_cell at h
  cases ho : offsets s with
  | none => rw [ho] at h; cases h
  | some o =>
    rw [ho] at h
    simp only [Option.map_some', Option.some.injEq] at h
    exact ⟨o, rfl, h.symm⟩

theorem offsets_eq_current (s : State) :
    offsets s = (current_direction s).map offset_of := by
  unfold offsets current_direction
  split_ifs <;> rfl

/-! ## Invariants of the running game -/

/-- C1: in every reachable state with the game not over, the chain from
`snake->tail` to `snake->head` exists and the cells of `g_board` tagged `'S'`
are exactly the cells on that chain. -/
theorem C1_tagged_cells_are_body (s : State) (hreach : Reachable s)
    (_hrun : s.g_is_game_over = 0) :
    ∃ l, body s = some l ∧ ∀ c, (inGrid c ∧ tag s c = 'S') ↔ c ∈ l := by
  obtain ⟨l, hi⟩ := reachable_inv hreach
  refine ⟨l, inv_body hi, fun c => ⟨fun h => (hi.body.tagged c).1 h.2, fun h => ?_⟩⟩
  exact ⟨hi.body.in_grid c h, (hi.body.tagged c).2 h⟩

/-- Instance of C1 at the start of a game. -/
theorem C1_tagged_cells_are_body_witness :
    Reachable start_far ∧ start_far.g_is_game_over = 0 ∧
      ∃ l, body start_far = some l ∧ ∀ c, (inGrid c ∧ tag start_far c = 'S') ↔ c ∈ l :=
  ⟨start_far_reachable, rfl, C1_tagged_cells_are_body start_far start_far_reachable rfl⟩

/-- C2: in every reachable state with the game not over, following `next`
links from `snake->tail` reaches `snake->head`, and the number of cells on that
chain equals `g_updated_len`. -/
theorem C2_chain_length_is_counter (s : State) (hreach : Reachable s)
    (_hrun : s.g_is_game_over = 0) :
    ∃ l, body s = some l ∧ l.head? = some s.tail ∧ l.getLast? = some s.head ∧
      l.length = s.g_updated_len := by
  obtain ⟨l, hi⟩ := reachable_inv hreach
  exact ⟨l, inv_body hi, hi.body.tail_first, isChain_getLast hi.body.chain, hi.length⟩

/-- Instance of C2 at the start of a game. -/
theorem C2_chain_length_is_counter_witness :
    Reachable start_far ∧ start_far.g_is_game_over = 0 ∧
      ∃ l, body start_far = some l ∧ l.head? = some start_far.tail ∧
        l.getLast? = some start_far.head ∧ l.length = start_far.g_updated_len :=
  ⟨start_far_reachable, rfl, C2_chain_length_is_counter start_far start_far_reachable rfl⟩

/-- C3: in every reachable state with the game not over, the body positions
from tail to head are pairwise distinct, all lie inside the 20x20 grid, and any
two consecutive positions are at Manhattan distance exactly 1. -/
theorem C3_body_distinct_inside_adjacent (s : State) (hreach : Reachable s)
    (_hrun : s.g_is_game_over = 0) :
    ∃ l, body s = some l ∧ l.Nodup ∧ (∀ c ∈ l, inGrid c) ∧
      List.Chain' (fun x y => manhattan x y = 1) l := by
  obtain ⟨l, hi⟩ := reachable_inv hreach
  exact ⟨l, inv_body hi, hi.body.nodup, hi.body.in_grid, hi.body.adjacent⟩

/-- Instance of C3 at the start of a game. -/
theorem C3_body_distinct_inside_adjacent_witness :
    Reachable start_far ∧ start_far.g_is_game_over = 0 ∧
      ∃ l, body start_far = some l ∧ l.Nodup ∧ (∀ c ∈ l, inGrid c) ∧
        List.Chain' (fun x y => manhattan x y = 1) l :=
  ⟨start_far_reachable, rfl,
    C3_body_distinct_inside_adjacent start_far start_far_reachable rfl⟩

/-! ## The four outcomes of a tick -/

/-- The scenario of C4 evaluated: the snake `(2,2),(2,3),(2,4),(2,5)` (head
first) heading left moves to `(2,1),(2,2),(2,3),(2,4)` and `(2,5)` becomes
empty. -/
theorem scenario_left_move :
    ∃ s', move_snake null_oob [] scenario_left = Except.ok s' ∧
      body scenario_left = some [(2, 5), (2, 4), (2, 3), (2, 2)] ∧
      body s' = some [(2, 4), (2, 3), (2, 2), (2, 1)] ∧ tag s' (2, 5) = '*' ∧
      s'.g_updated_len = 4 :=
  ⟨_, rfl, by decide, by decide, by decide, by decide⟩

/-- The scenario of C5 evaluated: the snake `(3,3)-(3,2)` heading right with the
food on `(3,4)` becomes `(3,4),(3,3),(3,2)` (head first) with length 3, and the
draw `(5,5)` places the new food. -/
theorem scenario_growth :
    ∃ s', move_snake null_oob [(5, 5)] scenario_grow = Except.ok s' ∧
      body scenario_grow = some [(3, 2), (3, 3)] ∧
      body s' = some [(3, 2), (3, 3), (3, 4)] ∧ s'.g_updated_len = 3 ∧
      tag s' (5, 5) = 'F' :=
  ⟨_, rfl, by decide, by decide, by decide, by decide⟩

/-- C6 (wall collision): in every state whose next cell lies outside the grid,
`move_snake` returns the same state with `g_is_game_over` set to 1, whatever
the out-of-range read of `g_board` yields. -/
theorem C6_wall_collision (oob : Int → Int → Ptr) (draws : List (Nat × Nat)) (s : State)
    (n : Cell) (hnext : next_cell s = some n) (hout : ¬ inGrid n) :
    move_snake oob draws s = Except.ok { s with g_is_game_over := 1 } := by
  obtain ⟨o, ho, hn⟩ := next_cell_adjacent hnext
  subst hn
  exact move_snake_wall oob draws s o ho hout

/-- Instance of C6: head at `(0,2)` heading up. -/
theorem C6_wall_collision_witness :
    next_cell at_top_wall = some (-1, 2) ∧ ¬ inGrid (-1, 2) ∧
      move_snake (fun _ _ => Ptr.node (5, 5)) [] at_top_wall =
        Except.ok { at_top_wall with g_is_game_over := 1 } :=
  ⟨by decide, by decide,
    C6_wall_collision (fun _ _ => Ptr.node (5, 5)) [] at_top_wall (-1, 2) (by decide)
      (by decide)⟩

/-- C7 (self collision): in every state whose next cell is inside the grid and
tagged `'S'`, `move_snake` returns the same state with `g_is_game_over` set to
1. -/
theorem C7_self_collision (oob : Int → Int → Ptr) (draws : List (Nat × Nat)) (s : State)
    (n : Cell) (hnext : next_cell s = some n) (hin : inGrid n) (hsnake : tag s n = 'S') :
    move_snake oob draws s = Except.ok { s with g_is_game_over := 1 } := by
  obtain ⟨o, ho, hn⟩ := next_cell_adjacent hnext
  subst hn
  have h1 : (s.board (s.head.1 + o.1, s.head.2 + o.2)).type ≠ '*' := by
    have : (s.board (s.head.1 + o.1, s.head.2 + o.2)).type = 'S' := hsnake
    rw [this]; decide
  have h2 : (s.board (s.head.1 + o.1, s.head.2 + o.2)).type ≠ 'F' := by
    have : (s.board (s.head.1 + o.1, s.head.2 + o.2)).type = 'S' := hsnake
    rw [this]; decide
  rw [move_snake_inside oob draws s o ho hin, if_neg h1, if_neg h2]

/-- Instance of C7: the head faces the current tail cell. -/
theorem C7_self_collision_witness :
    next_cell facing_tail = some (10, 9) ∧ inGrid (10, 9) ∧ tag facing_tail (10, 9) = 'S' ∧
      move_snake null_oob [] facing_tail = Except.ok { facing_tail with g_is_game_over := 1 } :=
  ⟨rfl, by decide, by decide,
    C7_self_collision null_oob [] facing_tail (10, 9) rfl (by decide) (by decide)⟩

/-- C8 (reversal rule): in every state with current direction `D`,
`check_direction` on the key of the opposite direction returns the state
unchanged, so the following `move_snake` yields what `move_snake` alone
yields. -/
theorem C8_reversal_ignored (oob : Int → Int → Ptr) (draws : List (Nat × Nat)) (s : State)
    (D : Direction) (hD : current_direction s = some D) :
    check_direction (some (key_of (opposite D))) s = s ∧
      move_snake oob draws (check_direction (some (key_of (opposite D))) s) =
        move_snake oob draws s := by
  have h : check_direction (some (key_of (opposite D))) s = s := by
    unfold current_direction at hD
    cases D <;> split_ifs at hD <;> simp_all [check_direction, opposite, key_of]
  exact ⟨h, by rw [h]⟩

/-- Instance of C8: heading right at the start, the key `'a'` is ignored. -/
theorem C8_reversal_ignored_witness :
    current_direction start_far = some Direction.Right ∧
      check_direction (some (key_of (opposite Direction.Right))) start_far = start_far ∧
      move_snake null_oob []
          (check_direction (some (key_of (opposite Direction.Right))) start_far) =
        move_snake null_oob [] start_far :=
  ⟨rfl, C8_reversal_ignored null_oob [] start_far Direction.Right rfl⟩

/-! ## Food -/

/-- C9: in every reachable state at most one cell of `g_board` is tagged
`'F'`. -/
theorem C9_at_most_one_food (s : State) (c1 c2 : Cell) (hreach : Reachable s)
    (_h1 : inGrid c1) (_h2 : inGrid c2) (hf1 : tag s c1 = 'F') (hf2 : tag s c2 = 'F') :
    c1 = c2 := by
  obtain ⟨l, hi⟩ := reachable_inv hreach
  exact hi.one_food c1 c2 hf1 hf2

/-- Instance of C9 after a growth tick: the food eaten on `(10,11)` is gone and
the only food is the new one on `(5,5)`. -/
theorem C9_at_most_one_food_witness :
    Reachable start_near_grown ∧ inGrid (5, 5) ∧ tag start_near_grown (5, 5) = 'F' ∧
      ((5, 5) : Cell) = (5, 5) :=
  ⟨Reachable.step ⟨none, [(5, 5)], null_oob⟩ start_near start_near_grown
      start_near_reachable rfl rfl,
    by decide, by decide,
    C9_at_most_one_food start_near_grown (5, 5) (5, 5)
      (Reachable.step ⟨none, [(5, 5)], null_oob⟩ start_near start_near_grown
        start_near_reachable rfl rfl)
      (by decide) (by decide) (by decide) (by decide)⟩

theorem add_food_globals {draws : List (Nat × Nat)} {s s' : State}
    (h : add_food draws s = Except.ok s') :
    flags s' = flags s ∧ s'.g_is_game_over = s.g_is_game_over ∧
      s'.g_updated_len = s.g_updated_len ∧ s'.head = s.head ∧ s'.tail = s.tail := by
  obtain ⟨d, _, _, hs⟩ := add_food_ok h
  rw [hs]
  exact ⟨rfl, rfl, rfl, rfl, rfl⟩

theorem move_tail_globals {s s' : State} (h : move_tail s = Except.ok s') :
    flags s' = flags s ∧ s'.g_is_game_over = s.g_is_game_over := by
  unfold move_tail at h
  simp only at h
  split at h
  · cases h; exact ⟨rfl, rfl⟩
  · cases h; exact ⟨rfl, rfl⟩
  · cases h

theorem move_snake_globals {oob : Int → Int → Ptr} {draws : List (Nat × Nat)} {s s' : State}
    (h : move_snake oob draws s = Except.ok s') :
    flags s' = flags s ∧
      (s'.g_is_game_over = s.g_is_game_over ∨ s'.g_is_game_over = 1) := by
  cases ho : offsets s with
  | none =>
    rw [move_snake_none oob draws s ho] at h
    cases h; exact ⟨rfl, Or.inl rfl⟩
  | some o =>
    by_cases hin : inGrid (s.head.1 + o.1, s.head.2 + o.2)
    · rw [move_snake_inside oob draws s o ho hin] at h
      split_ifs at h
      · obtain ⟨h1, h2⟩ := move_tail_globals h
        exact ⟨h1, Or.inl h2⟩
      · obtain ⟨h1, h2, _⟩ := add_food_globals h
        exact ⟨h1, Or.inl h2⟩
      · cases h; exact ⟨rfl, Or.inr rfl⟩
    · rw [move_snake_wall oob draws s o ho hin] at h
      cases h; exact ⟨rfl, Or.inr rfl⟩

/-- C11 (as the code behaves): `add_food` returns exactly when one of the draws
picks a cell that is not tagged `'S'`; when every cell of the grid is tagged
`'S'` it does not return, whatever the draws. -/
theorem C11_add_food_needs_free_cell (draws : List (Nat × Nat)) (s : State) :
    ((∃ s', add_food draws s = Except.ok s') ↔
        ∃ d ∈ draws, tag s (draw_cell d) ≠ 'S') ∧
      ((∀ c, inGrid c → tag s c = 'S') →
        add_food draws s = Except.error Fault.no_return) := by
  refine ⟨add_food_returns draws s, fun hfull => ?_⟩
  rw [add_food_eq]
  cases hf : draws.find? (fun d => decide ((s.board (draw_cell d)).type ≠ 'S')) with
  | none => rfl
  | some d =>
    have hp := List.find?_some hf
    simp only [ne_eq, decide_not, Bool.not_eq_true', decide_eq_false_iff_not] at hp
    exact absurd (hfull (draw_cell d) (draw_cell_inGrid d)) hp

/-- Instance of C11 on the full board with three draws. -/
theorem C11_add_food_needs_free_cell_witness :
    (∀ c, inGrid c → tag full_board c = 'S') ∧
      add_food [(3, 4), (7, 7), (0, 19)] full_board = Except.error Fault.no_return :=
  ⟨fun _ _ => rfl,
    (C11_add_food_needs_free_cell [(3, 4), (7, 7), (0, 19)] full_board).2 (fun _ _ => rfl)⟩

/-- C11 fails as stated: on the board whose cells are all tagged `'S'` no list
of draws, however long, makes `add_food` return. -/
theorem C11_full_board_never_returns :
    ¬ ∃ (draws : List (Nat × Nat)) (s' : State), add_food draws full_board = Except.ok s' := by
  rintro ⟨draws, s', h⟩
  obtain ⟨d, _, hd, _⟩ := add_food_ok h
  exact hd rfl

/-! ## Game over is terminal -/

theorem loop_body_quiet (t : Tick) (s : State) :
    loop_body_signals t quiet s = loop_body t s := by
  unfold loop_body_signals loop_body quiet
  simp only [Bool.false_eq_true, if_false]
  cases move_snake t.oob t.draws (check_direction t.key s) <;> rfl

theorem game_loop_quiet (ts : List Tick) (s : State) :
    game_loop_signals (ts.map (fun t => (t, quiet))) s = game_loop ts s := by
  induction ts generalizing s with
  | nil => rfl
  | cons t ts ih =>
    simp only [List.map_cons, game_loop_signals, game_loop, loop_body_quiet]
    split_ifs
    · cases loop_body t s with
      | error e => rfl
      | ok s1 => exact ih s1
    · rfl

/-- The run into the wall evaluated: eleven ticks from the start end with the
head on `(0,10)` and the game over, and further ticks change nothing. -/
theorem scenario_crash :
    game_loop ticks_crash start_far = Except.ok crashed ∧ crashed.head = (0, 10) ∧
      body crashed = some [(1, 10), (0, 10)] ∧
      game_loop (ticks_crash ++ [press (some 'd'), press none]) start_far =
        Except.ok crashed :=
  ⟨rfl, by decide, by decide, rfl⟩

/-! ## No current direction -/

theorem main_init_globals {junk : Cell → Ptr} {oob : Int → Int → Ptr}
    {draws : List (Nat × Nat)} {s : State} (h : main_init junk oob draws = Except.ok s) :
    flags s = unit_flags Direction.Right ∧ s.g_is_game_over = 0 ∧ s.g_updated_len = LEN ∧
      s.head = (10, 10) ∧ s.tail = (10, 9) := by
  rw [main_init_eq] at h
  obtain ⟨hf, ho, hl, hh, ht⟩ := add_food_globals h
  exact ⟨hf, ho, hl, hh, ht⟩

theorem offsets_of_flags {s : State} {D : Direction} (h : flags s = unit_flags D) :
    offsets s = some (offset_of D) := by
  unfold flags at h
  cases D <;> simp only [unit_flags, Prod.mk.injEq] at h <;>
    obtain ⟨h1, h2, h3, h4⟩ := h <;> simp [offsets, offset_of, h1, h2, h3, h4]

/-- C14 (as the code behaves): with all four direction flags 0, `move_snake`
returns the state unchanged; the game does not start in such a state, since
`main` starts with `g_right = 1` and offsets `(0, 1)`. -/
theorem C14_no_direction_is_noop (oob : Int → Int → Ptr) (draws : List (Nat × Nat))
    (s : State) (h0 : s.g_up = 0 ∧ s.g_down = 0 ∧ s.g_right = 0 ∧ s.g_left = 0) :
    move_snake oob draws s = Except.ok s ∧
      ∀ junk oob0 draws0 s0, main_init junk oob0 draws0 = Except.ok s0 →
        s0.g_right = 1 ∧ offsets s0 = some (0, 1) := by
  obtain ⟨h1, h2, h3, h4⟩ := h0
  refine ⟨move_snake_none oob draws s (by simp [offsets, h1, h2, h3, h4]), ?_⟩
  intro junk oob0 draws0 s0 hs0
  have hf := (main_init_globals hs0).1
  refine ⟨?_, offsets_of_flags hf⟩
  unfold flags unit_flags at hf
  simp only [Prod.mk.injEq] at hf
  exact hf.2.2.1

/-- Instance of C14: a state with no flag set. -/
theorem C14_no_direction_is_noop_witness :
    (no_direction.g_up = 0 ∧ no_direction.g_down = 0 ∧ no_direction.g_right = 0 ∧
        no_direction.g_left = 0) ∧
      move_snake null_oob [] no_direction = Except.ok no_direction :=
  ⟨⟨rfl, rfl, rfl, rfl⟩,
    (C14_no_direction_is_noop null_oob [] no_direction ⟨rfl, rfl, rfl, rfl⟩).1⟩

/-- C14 fails as stated: at the start of the game, before any direction input,
the direction flags are not all 0 and the first tick moves the snake from
`(10,9),(10,10)` to `(10,10),(10,11)`. -/
theorem C14_start_moves_right :
    main_init null_junk null_oob [(0, 0)] = Except.ok start_far ∧
      start_far.g_right = 1 ∧ body start_far = some [(10, 9), (10, 10)] ∧
      ∃ s', move_snake null_oob [] (check_direction none start_far) = Except.ok s' ∧
        s'.head = (10, 11) ∧ body s' = some [(10, 10), (10, 11)] ∧
        tag start_far (10, 9) = 'S' ∧ tag s' (10, 9) = '*' :=
  ⟨rfl, rfl, by decide, _, rfl, rfl, by decide, by decide, by decide⟩

/-! ## The shipped start -/

theorem init_state_LEN (junk : Cell → Ptr) (oob : Int → Int → Ptr) :
    init_state LEN junk oob = Except.ok (before_food junk) := rfl

theorem main_init_after_init_state (junk : Cell → Ptr) (oob : Int → Int → Ptr)
    (draws : List (Nat × Nat)) :
    main_init junk oob draws =
      match init_state LEN junk oob with
      | Except.ok s => add_food draws s
      | Except.error e => Except.error e := rfl

theorem all_cells_length : all_cells.length = 400 := by
  set_option maxRecDepth 100000 in decide

/-- C16: with `ROWS = COLS = 20` and `LEN = 2`, `init_board` and `init_snake`
return a state whose head is `(10,10)`, whose tail is `(10,9)` and linked to the
head, in which exactly these two cells are tagged `'S'` and the other 398 cells
of the grid `'*'`, with length counter 2, direction Right and the game not
over. -/
theorem C16_initial_layout (junk : Cell → Ptr) (oob : Int → Int → Ptr) :
    ∃ s, init_state LEN junk oob = Except.ok s ∧
      s.head = (10, 10) ∧ s.tail = (10, 9) ∧ (s.board s.tail).next = Ptr.node s.head ∧
      body s = some [(10, 9), (10, 10)] ∧
      (∀ c, tag s c = 'S' ↔ (c = (10, 10) ∨ c = (10, 9))) ∧
      (∀ c, c ≠ (10, 10) → c ≠ (10, 9) → tag s c = '*') ∧
      (all_cells.filter (fun c => decide (tag s c = 'S'))).length = 2 ∧
      (all_cells.filter (fun c => decide (tag s c = '*'))).length = 398 ∧
      s.g_updated_len = 2 ∧ flags s = (0, 0, 1, 0) ∧
      current_direction s = some Direction.Right ∧ s.g_is_game_over = 0 := by
  have hS : (fun c => decide (tag (before_food junk) c = 'S')) =
      (fun c => decide (c = (10, 9) ∨ c = (10, 10))) := by
    funext c
    unfold tag
    rw [before_food_type]
    by_cases h1 : c = (10, 9)
    · simp [h1]
    · by_cases h2 : c = (10, 10)
      · simp [h2]
      · simp [h1, h2]
  have hE : (fun c => decide (tag (before_food junk) c = '*')) =
      (fun c => decide (¬ (c = (10, 9) ∨ c = (10, 10)))) := by
    funext c
    unfold tag
    rw [before_food_type]
    by_cases h1 : c = (10, 9)
    · simp [h1]
    · by_cases h2 : c = (10, 10)
      · simp [h2]
      · simp [h1, h2]
  refine ⟨before_food junk, rfl, rfl, rfl, rfl, rfl, ?_, ?_, ?_, ?_, rfl, rfl, rfl, rfl⟩
  · intro c
    unfold tag
    rw [before_food_type]
    by_cases h1 : c = (10, 9)
    · simp [h1]
    · by_cases h2 : c = (10, 10)
      · simp [h2]
      · simp [h1, h2]
  · intro c h2 h1
    unfold tag
    rw [before_food_type, if_neg h1, if_neg h2]
  · rw [hS]
    set_option maxRecDepth 100000 in decide
  · rw [hE]
    set_option maxRecDepth 100000 in decide

/-! ## Direction flags -/

theorem check_direction_flags (k : Option Char) {s : State} {D : Direction}
    (h : flags s = unit_flags D) :
    ∃ D', flags (check_direction k s) = unit_flags D' ∧ D' ≠ opposite D := by
  unfold flags at h
  cases k with
  | none => exact ⟨D, h, by cases D <;> decide⟩
  | some c =>
    cases D <;> simp only [unit_flags, Prod.mk.injEq] at h <;>
      obtain ⟨h1, h2, h3, h4⟩ := h <;>
      unfold check_direction <;> simp only <;> split_ifs <;>
      first
        | omega
        | (refine ⟨Direction.Up, ?_, ?_⟩
           · simp [flags, unit_flags, h1, h2, h3, h4]
           · decide)
        | (refine ⟨Direction.Down, ?_, ?_⟩
           · simp [flags, unit_flags, h1, h2, h3, h4]
           · decide)
        | (refine ⟨Direction.Right, ?_, ?_⟩
           · simp [flags, unit_flags, h1, h2, h3, h4]
           · decide)
        | (refine ⟨Direction.Left, ?_, ?_⟩
           · simp [flags, unit_flags, h1, h2, h3, h4]
           · decide)

theorem engine_flags {s : State} (h : EngineReachable s) : ∃ D, flags s = unit_flags D := by
  induction h with
  | init junk oob draws s h0 => exact ⟨Direction.Right, (main_init_globals h0).1⟩
  | key k s _ ih =>
    obtain ⟨D, hD⟩ := ih
    obtain ⟨D', hD', _⟩ := check_direction_flags k hD
    exact ⟨D', hD'⟩
  | move oob draws s s' _ hm ih =>
    obtain ⟨D, hD⟩ := ih
    exact ⟨D, by rw [(move_snake_globals hm).1]; exact hD⟩

theorem reachable_engine {s : State} (h : Reachable s) : EngineReachable s := by
  induction h with
  | init junk oob draws s h0 => exact EngineReachable.init junk oob draws s h0
  | step t s s' _ _ hstep ih =>
    exact EngineReachable.move t.oob t.draws _ s' (EngineReachable.key t.key s ih) hstep

/-- C17: in a state where exactly the flag of `D` is set, `check_direction` on
the key of a direction `R` other than the opposite of `D` leaves the flag of `R`
1 and the other three 0; a character other than `w`, `s`, `d`, `a` leaves the
state unchanged; and no key changes the board, the snake pointers, the length
counter or the game-over flag. -/
theorem C17_check_direction_sets (s : State) (D R : Direction) (hD : heading s D)
    (hR : R ≠ opposite D) :
    flags (check_direction (some (key_of R)) s) = unit_flags R ∧
      current_direction (check_direction (some (key_of R)) s) = some R ∧
      (∀ k : Char, k ≠ 'w' → k ≠ 's' → k ≠ 'd' → k ≠ 'a' →
        check_direction (some k) s = s) ∧
      ∀ k : Option Char, (check_direction k s).board = s.board ∧
        (check_direction k s).head = s.head ∧ (check_direction k s).tail = s.tail ∧
        (check_direction k s).g_updated_len = s.g_updated_len ∧
        (check_direction k s).g_is_game_over = s.g_is_game_over := by
  refine ⟨?_, ?_, ?_, fun k => check_direction_frame k s⟩
  · cases D <;> cases R <;> first | exact absurd rfl hR | skip
    all_goals
      obtain ⟨h1, h2, h3, h4⟩ := hD
      simp [check_direction, key_of, flags, unit_flags, h1, h2, h3, h4]
  · cases D <;> cases R <;> first | exact absurd rfl hR | skip
    all_goals
      obtain ⟨h1, h2, h3, h4⟩ := hD
      simp [check_direction, key_of, current_direction, h1, h2, h3, h4]
  · intro k hw hs hd ha
    simp [check_direction, hw, hs, hd, ha]

/-- Instance of C17: heading right at the start, the key `w` turns the snake
up. -/
theorem C17_check_direction_sets_witness :
    heading start_far Direction.Right ∧ Direction.Up ≠ opposite Direction.Right ∧
      flags (check_direction (some (key_of Direction.Up)) start_far) =
        unit_flags Direction.Up :=
  ⟨by decide, by decide,
    (C17_check_direction_sets start_far Direction.Right Direction.Up (by decide)
      (by decide)).1⟩

/-- C18: in every state reached from the start by `check_direction` and
`move_snake` calls in any order, one direction flag is 1 and the other three
are 0, so `move_snake` finds offsets and does not take its early return; at the
start the flag is `g_right`. -/
theorem C18_one_direction_flag (s : State) (h : EngineReachable s) :
    (∃ D, flags s = unit_flags D) ∧
      [s.g_up, s.g_down, s.g_right, s.g_left].count 1 = 1 ∧
      (∀ x ∈ [s.g_up, s.g_down, s.g_right, s.g_left], x = 0 ∨ x = 1) ∧
      offsets s ≠ none ∧
      ∀ junk oob draws s0, main_init junk oob draws = Except.ok s0 →
        flags s0 = unit_flags Direction.Right := by
  obtain ⟨D, hD⟩ := engine_flags h
  refine ⟨⟨D, hD⟩, ?_, ?_, ?_, fun junk oob draws s0 h0 => (main_init_globals h0).1⟩
  · unfold flags at hD
    cases D <;> simp only [unit_flags, Prod.mk.injEq] at hD <;>
      obtain ⟨h1, h2, h3, h4⟩ := hD <;> rw [h1, h2, h3, h4] <;> decide
  · unfold flags at hD
    cases D <;> simp only [unit_flags, Prod.mk.injEq] at hD <;>
      obtain ⟨h1, h2, h3, h4⟩ := hD <;> rw [h1, h2, h3, h4] <;> decide
  · rw [offsets_of_flags hD]
    exact fun e => Option.noConfusion e

/-- Instance of C18: the start state after the key `w`. -/
theorem C18_one_direction_flag_witness :
    EngineReachable (check_direction (some 'w') start_far) ∧
      flags (check_direction (some 'w') start_far) = unit_flags Direction.Up ∧
      offsets (check_direction (some 'w') start_far) ≠ none :=
  ⟨EngineReachable.key (some 'w') start_far
      (EngineReachable.init null_junk null_oob [(0, 0)] start_far rfl),
    by decide,
    (C18_one_direction_flag (check_direction (some 'w') start_far)
      (EngineReachable.key (some 'w') start_far
        (EngineReachable.init null_junk null_oob [(0, 0)] start_far rfl))).2.2.2.1⟩

/-! ## Configured initial length -/

/-- C12 (as the code behaves): for `1 ≤ n ≤ COLS` in place of `LEN`,
`init_board` and `init_snake` return a state whose length counter is `n`, whose
head is the centre cell, whose head and tail cells are tagged `'S'`, and whose
body is the horizontal run ending on the centre cell with `n` cells when
`n ≤ 11` and with `22 - n` cells when `n ≥ 12`; for `n ≤ 2` every cell of the
run is tagged `'S'`. -/
theorem C12_initial_run (n : Nat) (junk : Cell → Ptr) (oob : Int → Int → Ptr)
    (h1 : 1 ≤ n) (h2 : n ≤ COLS) :
    ∃ s, init_state n junk oob = Except.ok s ∧ s.g_updated_len = n ∧
      s.head = (10, 10) ∧ tag s s.head = 'S' ∧ tag s s.tail = 'S' ∧
      body s = some (run_cells (if n ≤ 11 then n else 22 - n)) ∧
      (n ≤ 2 → ∀ c ∈ run_cells n, tag s c = 'S') := by
  have h3 : n ≤ 20 := h2
  interval_cases n
  · refine ⟨_, rfl, rfl, rfl, rfl, rfl, rfl, fun _ c hc => ?_⟩
    simp [run_cells] at hc
    subst hc; rfl
  · refine ⟨_, rfl, rfl, rfl, rfl, rfl, rfl, fun _ c hc => ?_⟩
    simp [run_cells, List.range_succ] at hc
    rcases hc with hc | hc <;> subst hc <;> rfl
  all_goals exact ⟨_, rfl, rfl, rfl, rfl, rfl, rfl, fun h => absurd h (by decide)⟩

/-- Instance of C12: the shipped length 2. -/
theorem C12_initial_run_witness :
    1 ≤ 2 ∧ 2 ≤ COLS ∧
      ∃ s, init_state 2 null_junk null_oob = Except.ok s ∧ s.g_updated_len = 2 ∧
        s.head = (10, 10) ∧ tag s s.head = 'S' ∧ tag s s.tail = 'S' ∧
        body s = some (run_cells (if 2 ≤ 11 then 2 else 22 - 2)) ∧
        (2 ≤ 2 → ∀ c ∈ run_cells 2, tag s c = 'S') :=
  ⟨by decide, by decide, C12_initial_run 2 null_junk null_oob (by decide) (by decide)⟩

/-- C12 fails as stated at `n = 12`: the tail column is `abs(10 - 12 + 1) = 1`,
so the body laid out has 10 cells while the length counter is 12. -/
theorem C12_length_12_gives_10_cells :
    12 ≤ COLS ∧
      ∃ s, init_state 12 null_junk null_oob = Except.ok s ∧ s.g_updated_len = 12 ∧
        s.tail = (10, 1) ∧
        body s = some [(10, 1), (10, 2), (10, 3), (10, 4), (10, 5), (10, 6), (10, 7),
          (10, 8), (10, 9), (10, 10)] ∧
        (Option.map List.length (body s)) = some 10 :=
  ⟨by decide, _, rfl, rfl, rfl, rfl, rfl⟩

/-- With `n = 3` the run has three cells but `init_snake` tags only its two
ends: the middle cell `(10,9)` keeps the tag `'*'`. -/
theorem scenario_length_3 :
    ∃ s, init_state 3 null_junk null_oob = Except.ok s ∧
      body s = some [(10, 8), (10, 9), (10, 10)] ∧ tag s (10, 8) = 'S' ∧
      tag s (10, 9) = '*' ∧ tag s (10, 10) = 'S' :=
  ⟨_, rfl, rfl, rfl, rfl, rfl⟩

/-! ## The neck is behind the head -/

theorem getLast?_cons_of_some {a x : Cell} {t : List Cell} (h : t.getLast? = some x) :
    (a :: t).getLast? = some x := by
  cases t with
  | nil => simp at h
  | cons b r => simpa [List.getLast?_cons_cons] using h

theorem neck_of_body {s : State} {l : List Cell} (h : body s = some l) :
    neck s = l.dropLast.getLast? := by
  unfold neck
  rw [h]

theorem neck_after_step {l : List Cell} {h n x : Cell} (hl : l.getLast? = some h)
    (hx : (l.tail ++ [n]).dropLast.getLast? = some x) : x = h := by
  rw [List.dropLast_concat] at hx
  cases l with
  | nil => simp at hx
  | cons a t =>
    simp only [List.tail_cons] at hx
    have := getLast?_cons_of_some (a := a) hx
    rw [hl] at this
    exact (Option.some.inj this).symm

theorem neck_after_growth {l : List Cell} {h n x : Cell} (hl : l.getLast? = some h)
    (hx : (l ++ [n]).dropLast.getLast? = some x) : x = h := by
  rw [List.dropLast_concat, hl] at hx
  exact (Option.some.inj hx).symm

theorem reachable_neck {s : State} (hreach : Reachable s) (hrun : s.g_is_game_over = 0)
    {x : Cell} {o : Int × Int} (hx : neck s = some x) (ho : offsets s = some o) :
    x = (s.head.1 - o.1, s.head.2 - o.2) := by
  cases hreach with
  | init junk oob draws _ h0 =>
    have hb := inv_body (inv_main_init h0)
    obtain ⟨hf, _, _, hh, _⟩ := main_init_globals h0
    rw [neck_of_body hb] at hx
    rw [offsets_of_flags hf] at ho
    cases ho
    simp only [List.dropLast, List.getLast?_singleton, Option.some.injEq] at hx
    rw [hh, ← hx]
    rfl
  | step t s0 _ h0 hrun0 hstep =>
    obtain ⟨l, hl⟩ := reachable_inv h0
    have hi := inv_check_direction t.key hl
    have hlast := isChain_getLast hi.body.chain
    unfold loop_body at hstep
    cases ho1 : offsets (check_direction t.key s0) with
    | none =>
      rw [move_snake_none _ _ _ ho1] at hstep
      cases hstep
      rw [ho1] at ho
      cases ho
    | some o1 =>
      by_cases hin : inGrid ((check_direction t.key s0).head.1 + o1.1,
          (check_direction t.key s0).head.2 + o1.2)
      · by_cases hE : ((check_direction t.key s0).board
            ((check_direction t.key s0).head.1 + o1.1,
              (check_direction t.key s0).head.2 + o1.2)).type = '*'
        · obtain ⟨t', he, hi', _⟩ := step_empty t.oob t.draws hi ho1 hin hE
          rw [he] at hstep
          cases hstep
          have ho' : offsets (check_direction t.key s0) = some o := ho
          rw [ho1] at ho'
          cases ho'
          rw [neck_of_body (inv_body hi')] at hx
          have := neck_after_step hlast hx
          rw [this]
          show _ = (_ + o.1 - o.1, _ + o.2 - o.2)
          ext <;> simp
        · by_cases hF : ((check_direction t.key s0).board
              ((check_direction t.key s0).head.1 + o1.1,
                (check_direction t.key s0).head.2 + o1.2)).type = 'F'
          · obtain ⟨he, hi', _⟩ := step_food t.oob t.draws hi ho1 hin hF
            rw [he] at hstep
            obtain ⟨d, _, hS, hs'⟩ := add_food_ok hstep
            have hi2 := inv_set_food hi' (step_food_no_food hi hF) hS
            rw [← hs'] at hi2
            rw [neck_of_body (inv_body hi2)] at hx
            have hxh := neck_after_growth hlast hx
            rw [hs'] at ho
            have ho' : offsets (check_direction t.key s0) = some o := ho
            rw [ho1] at ho'
            cases ho'
            rw [hxh, hs']
            show _ = (_ + o.1 - o.1, _ + o.2 - o.2)
            ext <;> simp
          · rw [move_snake_inside _ _ _ o1 ho1 hin, if_neg hE, if_neg hF] at hstep
            cases hstep
            exact absurd (show (1 : Nat) = 0 from hrun) (by decide)
      · rw [move_snake_wall _ _ _ o1 ho1 hin] at hstep
        cases hstep
        exact absurd (show (1 : Nat) = 0 from hrun) (by decide)

theorem offset_of_not_reverse {D D' : Direction} (h : D' ≠ opposite D) (c : Cell) :
    (c.1 + (offset_of D').1, c.2 + (offset_of D').2) ≠
      (c.1 - (offset_of D).1, c.2 - (offset_of D).2) := by
  intro e
  have e1 := congrArg Prod.fst e
  have e2 := congrArg Prod.snd e
  cases D <;> cases D' <;> simp [offset_of] at e1 e2 <;>
    first | exact h rfl | omega

/-- C15: in a reachable running state whose body has a cell behind the head
(length at least 2), whatever key `check_direction` handles next, the cell
`move_snake` then looks at is not that cell; with no key this is the state
itself. -/
theorem C15_never_onto_neck (s : State) (k : Option Char) (l : List Cell) (x : Cell)
    (hreach : Reachable s) (hrun : s.g_is_game_over = 0) (hbody : body s = some l)
    (_hlen : 2 ≤ l.length) (hneck : l.dropLast.getLast? = some x) :
    next_cell (check_direction k s) ≠ some x ∧ next_cell s ≠ some x := by
  obtain ⟨D, hD⟩ := engine_flags (reachable_engine hreach)
  have hx : neck s = some x := by rw [neck_of_body hbody]; exact hneck
  have hxe := reachable_neck hreach hrun hx (offsets_of_flags hD)
  have key : ∀ k', next_cell (check_direction k' s) ≠ some x := by
    intro k'
    obtain ⟨D', hD', hne⟩ := check_direction_flags k' hD
    unfold next_cell
    rw [offsets_of_flags hD', (check_direction_frame k' s).2.1, hxe]
    simp only [Option.map_some', ne_eq, Option.some.injEq]
    exact offset_of_not_reverse hne s.head
  exact ⟨key k, key none⟩

/-- Instance of C15, on the snake `(2,5),(2,4),(2,3),(2,2)` heading left: the
reversing key `d` is ignored and the next cell `(2,1)` is not the neck
`(2,3)`. -/
theorem C15_never_onto_neck_witness :
    Reachable scenario_left ∧ scenario_left.g_is_game_over = 0 ∧
      body scenario_left = some [(2, 5), (2, 4), (2, 3), (2, 2)] ∧
      next_cell (check_direction (some 'd') scenario_left) ≠ some (2, 3) ∧
      next_cell scenario_left ≠ some (2, 3) :=
  ⟨scenario_left_reachable, by decide, by decide,
    C15_never_onto_neck scenario_left (some 'd') [(2, 5), (2, 4), (2, 3), (2, 2)] (2, 3)
      scenario_left_reachable (by decide) (by decide) (by decide) (by decide)⟩

end Snake
